import Mathlib

/-!
# scn2scn: node pruning and transform composition

A shallow embedding of `src/apps/scn2scn/scn2scn.cpp`:

* `RemoveNodes` (lines 179-223), the post-order pruning of one node, and
  `RemoveNodesScene` (lines 227-248), the driver called from `main`;
* the transform-editing branches of `ParseArgs` (lines 263-311), `ReadMatrix`
  (lines 147-171) and the final application in `main` (lines 375-382).

The classes of `R3Graphics/R3Graphics.h` are not part of the source file.  What
the program needs of them is either taken as a parameter (`R3BoxOps`) or
modelled from the specification (marked so at each definition).
-/

namespace Scn2Scn

/-! ## Scene graph -/

/-- The two `R3Box` queries read by the pruner, `R3Box::IsEmpty` and
`R3Intersects(box, box)`.  They are declared in the graphics library and are
taken as parameters: every statement below holds for all of them. -/
structure R3BoxOps (Box : Type) where
  IsEmpty : Box → Bool
  R3Intersects : Box → Box → Bool

/-- A scene node.  `id` stands for the address of the C++ object (pointer
equality is equality of `id`), `bbox` is the value of `WorldBBox()`, taken as
given for each node, and `children` is the ordered child array. -/
inductive R3SceneNode (Box : Type) where
  | mk (id : Nat) (name : String) (bbox : Box) (children : List (R3SceneNode Box))

variable {Box : Type}

/-- Address of the node. -/
def R3SceneNode.id : R3SceneNode Box → Nat
  | .mk i _ _ _ => i

/-- Name of the node (`R3SceneNode::Name`). -/
def R3SceneNode.name : R3SceneNode Box → String
  | .mk _ n _ _ => n

/-- World bounding box of the node (`R3SceneNode::WorldBBox`). -/
def R3SceneNode.bbox : R3SceneNode Box → Box
  | .mk _ _ b _ => b

/-- Child array of the node (`NChildren`, `Child`). -/
def R3SceneNode.children : R3SceneNode Box → List (R3SceneNode Box)
  | .mk _ _ _ cs => cs

mutual
/-- Addresses of all nodes of the subtree rooted at a node, the node first. -/
def R3SceneNode.ids : R3SceneNode Box → List Nat
  | .mk i _ _ cs => i :: idsList cs
/-- Addresses of all nodes of the subtrees rooted at the nodes of a list. -/
def idsList : List (R3SceneNode Box) → List Nat
  | [] => []
  | c :: cs => c.ids ++ idsList cs
end

mutual
/-- Every node of the subtree rooted at a node, paired with the addresses of
its proper ancestors, nearest first (the chain of `Parent()` pointers).  The
first argument is the chain of the subtree's root. -/
def R3SceneNode.withAncestors : List Nat → R3SceneNode Box → List (List Nat × R3SceneNode Box)
  | chain, .mk i n b cs => (chain, .mk i n b cs) :: withAncestorsList (i :: chain) cs
/-- The same for the nodes of a list, which share their chain. -/
def withAncestorsList : List Nat → List (R3SceneNode Box) → List (List Nat × R3SceneNode Box)
  | _, [] => []
  | chain, c :: cs => c.withAncestors chain ++ withAncestorsList chain cs
end

mutual
/-- Nodes in the order in which the recursive `RemoveNodes` takes its
decision on them: post-order. -/
def R3SceneNode.postOrder : R3SceneNode Box → List Nat
  | .mk i _ _ cs => postOrderList cs ++ [i]
/-- Post-order of a list of subtrees. -/
def postOrderList : List (R3SceneNode Box) → List Nat
  | [] => []
  | c :: cs => c.postOrder ++ postOrderList cs
end

/-- Modelled from the spec: `R3SceneNode::IsAncestor`, missing from the source
file.  "An ancestor of the subtree-root": the subtree root `t` is found among
the descendants the node has when the question is asked, that is among the
subtrees of its live children.  (Once the object of the subtree root has been
deleted the C++ call is handed a dangling pointer; here the subtree root is
then not found.  The answer only matters for a node without live children.) -/
def IsAncestor (liveChildren : List (R3SceneNode Box)) (t : Nat) : Bool :=
  decide (t ∈ idsList liveChildren)

/-- Modelled from the spec: `R3SceneNode::IsDecendent`, missing from the source
file.  "A descendant of the subtree-root": the subtree root `t` is met on the
walk up the node's parent pointers. -/
def IsDecendent (chain : List Nat) (t : Nat) : Bool :=
  decide (t ∈ chain)

mutual
/-- The recursive `RemoveNodes(scene, node, select_subtree_node, select_bbox)`
of lines 179-223.  `root` is the address `scene->Root()`, `chain` the parent
pointers of `node`.  The result is `none` when the node has been deleted and
otherwise the node with the children it has left. -/
def RemoveNodes (ops : R3BoxOps Box) (root : Nat) (select_subtree_node : Option Nat)
    (select_bbox : Box) : List Nat → R3SceneNode Box → Option (R3SceneNode Box)
  | chain, .mk i n b cs =>
    -- visit the (copied) children recursively in post order
    let live := RemoveNodesChildren ops root select_subtree_node select_bbox (i :: chain) cs
    -- innocent until proven guilty
    let remove := false
    -- bbox selection
    let remove :=
      if !ops.IsEmpty select_bbox then
        if !ops.R3Intersects b select_bbox then true else remove
      else remove
    -- subtree selection
    let remove :=
      match select_subtree_node with
      | some t =>
        if i != t then
          if !IsAncestor live t then
            if !IsDecendent chain t then true else remove
          else remove
        else remove
      | none => remove
    -- pardon based on topology
    let remove := if live.length > 0 then false else remove
    let remove := if i == root then false else remove
    if remove then none else some (.mk i n b live)
/-- The loop of lines 190-194 over the copy of the child array: each child is
pruned in turn; the result is the child array that is left. -/
def RemoveNodesChildren (ops : R3BoxOps Box) (root : Nat) (select_subtree_node : Option Nat)
    (select_bbox : Box) : List Nat → List (R3SceneNode Box) → List (R3SceneNode Box)
  | _, [] => []
  | chain, c :: cs =>
    match RemoveNodes ops root select_subtree_node select_bbox chain c with
    | none => RemoveNodesChildren ops root select_subtree_node select_bbox chain cs
    | some c' => c' :: RemoveNodesChildren ops root select_subtree_node select_bbox chain cs
end

/-- The scene: it owns the root node. -/
structure R3Scene (Box : Type) where
  root : R3SceneNode Box

/-- Modelled from the spec: `R3Scene::Node(name)`, missing from the source
file.  "Name-indexed lookup of nodes by identifier": the address of a node of
the scene that carries the name, if there is one. -/
def R3Scene.Node (scene : R3Scene Box) (name : String) : Option Nat :=
  ((scene.root.withAncestors []).find? (fun p => p.2.name == name)).map (fun p => p.2.id)

/-- What `RemoveNodes(scene)` leaves behind: its return value, the tree that
hangs off `scene->Root()` (`none` if the root object has been deleted), and the
nodes on which the recursive function has been run, in order. -/
structure Pruned (Box : Type) where
  status : Int
  root : Option (R3SceneNode Box)
  visited : List Nat

/-- The driver `RemoveNodes(scene)` of lines 227-248.  The two program
arguments it reads, `select_nodes_in_subtree_name` (`none` for `NULL`) and
`select_nodes_in_bbox`, are passed explicitly. -/
def RemoveNodesScene (ops : R3BoxOps Box) (select_nodes_in_subtree_name : Option String)
    (select_nodes_in_bbox : Box) (scene : R3Scene Box) : Pruned Box :=
  -- check if selecting nodes
  if ops.IsEmpty select_nodes_in_bbox && select_nodes_in_subtree_name.isNone then
    { status := 1, root := some scene.root, visited := [] }
  else
    -- find select subtree node
    match select_nodes_in_subtree_name with
    | some name =>
      match scene.Node name with
      | none => { status := 0, root := some scene.root, visited := [] }
      | some t =>
        { status := 1
          root := RemoveNodes ops scene.root.id (some t) select_nodes_in_bbox [] scene.root
          visited := scene.root.postOrder }
    | none =>
      { status := 1
        root := RemoveNodes ops scene.root.id none select_nodes_in_bbox [] scene.root
        visited := scene.root.postOrder }

/-- The step "Remove unselected nodes" of `main` (lines 370-373): the driver is
called only when a filter is active, and its failure ends the program with
exit status -1.  Otherwise the result is the tree the program goes on with,
together with the nodes visited. -/
def mainRemoveNodes (ops : R3BoxOps Box) (select_nodes_in_subtree_name : Option String)
    (select_nodes_in_bbox : Box) (scene : R3Scene Box) :
    Except Int (Option (R3SceneNode Box) × List Nat) :=
  if !ops.IsEmpty select_nodes_in_bbox || select_nodes_in_subtree_name.isSome then
    let r := RemoveNodesScene ops select_nodes_in_subtree_name select_nodes_in_bbox scene
    if r.status == 0 then .error (-1) else .ok (r.root, r.visited)
  else .ok (some scene.root, [])

/-- Addresses of the nodes that are left under an optional root. -/
def liveIds : Option (R3SceneNode Box) → List Nat
  | none => []
  | some r => r.ids

/-- The retention test of one node taken by itself: it passes the bbox filter
(the filter is empty or the node's box intersects it) and the subtree filter
(no target, or the node is the target or has it in its parent chain). -/
def Passes (ops : R3BoxOps Box) (select_subtree_node : Option Nat) (select_bbox : Box)
    (p : List Nat × R3SceneNode Box) : Prop :=
  (ops.IsEmpty select_bbox = true ∨ ops.R3Intersects p.2.bbox select_bbox = true) ∧
  ∀ t, select_subtree_node = some t → p.2.id = t ∨ t ∈ p.1

/-! ## Sample scenes

A concrete choice of the box parameters and a few small scenes, used to
evaluate the functions above. -/

/-- Axis-aligned boxes with integer corners, as a sample instance of the box
parameters. -/
structure IntBox where
  xmin : Int
  ymin : Int
  zmin : Int
  xmax : Int
  ymax : Int
  zmax : Int

/-- Sample box queries: a box is empty when a minimum exceeds the maximum on
some axis; two boxes intersect when they overlap on every axis. -/
def intBoxOps : R3BoxOps IntBox :=
  ⟨fun b => decide (b.xmin > b.xmax ∨ b.ymin > b.ymax ∨ b.zmin > b.zmax),
   fun a b => decide (a.xmin ≤ b.xmax ∧ b.xmin ≤ a.xmax ∧ a.ymin ≤ b.ymax ∧ b.ymin ≤ a.ymax ∧
     a.zmin ≤ b.zmax ∧ b.zmin ≤ a.zmax)⟩

/-- The filter box when `-select_nodes_in_bbox` is not given: minima above
maxima, as in line 18. -/
def noBox : IntBox := ⟨1, 1, 1, -1, -1, -1⟩

/-- The filter box `0 0 0 1 1 1`. -/
def unitBox : IntBox := ⟨0, 0, 0, 1, 1, 1⟩

/-- A leaf node. -/
def leaf (i : Nat) (name : String) (b : IntBox) : R3SceneNode IntBox := .mk i name b []

/-- Root `R` with the single child `T`, whose box lies outside `unitBox`. -/
def sceneRT : R3Scene IntBox :=
  ⟨.mk 0 "R" ⟨0, 0, 0, 9, 9, 9⟩ [leaf 1 "T" ⟨5, 5, 5, 6, 6, 6⟩]⟩

/-- Root `R` with children `A` (box outside `unitBox`, no children) and `B`
(box partially inside), `B` with the child `C` (box inside). -/
def sceneRABC : R3Scene IntBox :=
  ⟨.mk 0 "R" ⟨0, 0, 0, 9, 9, 9⟩
    [leaf 1 "A" ⟨5, 5, 5, 6, 6, 6⟩,
     .mk 2 "B" ⟨0, 0, 0, 3, 3, 3⟩ [leaf 3 "C" ⟨0, 0, 0, 1, 1, 1⟩]]⟩

/-- Node `P`, whose box lies outside `unitBox`, with the child `Q`, whose box
lies inside. -/
def nodeP : R3SceneNode IntBox :=
  .mk 7 "P" ⟨5, 5, 5, 6, 6, 6⟩ [leaf 8 "Q" ⟨0, 0, 0, 1, 1, 1⟩]

/-- Root `R` with the single child `P` (see `nodeP`). -/
def sceneRPQ : R3Scene IntBox :=
  ⟨.mk 0 "R" ⟨5, 5, 5, 9, 9, 9⟩ [nodeP]⟩

/-- Node `T` with the child `D`, itself with the child `E`. -/
def nodeT : R3SceneNode IntBox :=
  .mk 3 "T" ⟨5, 5, 5, 6, 6, 6⟩ [.mk 4 "D" ⟨5, 5, 5, 6, 6, 6⟩ [leaf 5 "E" ⟨5, 5, 5, 6, 6, 6⟩]]

/-- Node `A` with the child `A1`. -/
def nodeA : R3SceneNode IntBox :=
  .mk 1 "A" ⟨5, 5, 5, 6, 6, 6⟩ [leaf 2 "A1" ⟨5, 5, 5, 6, 6, 6⟩]

/-- Root `R` with children `A` (with child `A1`), `T` (with child `D`, itself
with child `E`) and `F`; all boxes lie outside `unitBox`. -/
def sceneSubtree : R3Scene IntBox :=
  ⟨.mk 0 "R" ⟨5, 5, 5, 9, 9, 9⟩ [nodeA, nodeT, leaf 6 "F" ⟨5, 5, 5, 6, 6, 6⟩]⟩

/-! ## Transform composer

The classes `R4Matrix` and `R3Affine` are missing from the source file.  Numbers
are rationals, standing for the doubles of the program. -/

/-- A 4x4 matrix, "4 rows × 4 columns", indexed row first. -/
abbrev R4Matrix := Matrix (Fin 4) (Fin 4) ℚ

/-- An affine transformation, given by its matrix (`R3Affine(matrix, 0)`). -/
abbrev R3Affine := R4Matrix

/-- A point of space. -/
structure R3Point where
  x : ℚ
  y : ℚ
  z : ℚ

/-- On which side of a matrix a point stands when a transformation is applied
to it: as the column vector `(x, y, z, 1)` to the right of the matrix, or as
the row vector `(x, y, z, 1)` to its left.  The source file and the
specification leave this open, so it is a parameter of everything below. -/
inductive VectorConvention where
  | column
  | row

/-- The transformation `R3identity_affine` (line 19 gives its matrix). -/
def R3identity_affine : R3Affine :=
  !![1, 0, 0, 0; 0, 1, 0, 0; 0, 0, 1, 0; 0, 0, 0, 1]

/-- Matrix of the translation by `(dx, dy, dz)`: the offsets stand in the last
column when points are column vectors and in the last row when they are row
vectors. -/
def translationMatrix (conv : VectorConvention) (dx dy dz : ℚ) : R4Matrix :=
  match conv with
  | .column => !![1, 0, 0, dx; 0, 1, 0, dy; 0, 0, 1, dz; 0, 0, 0, 1]
  | .row => !![1, 0, 0, 0; 0, 1, 0, 0; 0, 0, 1, 0; dx, dy, dz, 1]

/-- Matrix of the scaling by `(sx, sy, sz)` along the axes, the same under both
conventions. -/
def scalingMatrix (sx sy sz : ℚ) : R4Matrix :=
  !![sx, 0, 0, 0; 0, sy, 0, 0; 0, 0, sz, 0; 0, 0, 0, 1]

/-- Modelled from the spec: `R3Affine::Transform`, missing from the source
file.  Applying a further transform to the current one multiplies its matrix
onto the right of the current matrix, as the specification says of `Scale`
("post-multiplying ... onto current state"). -/
def R3Affine.Transform (a b : R3Affine) : R3Affine := a * b

/-- Modelled from the spec: `R3Affine::Scale`, missing from the source file.
"Scaling the existing accumulated transform directly (post-multiplying scale
onto current state)". -/
def R3Affine.Scale (a : R3Affine) (s : ℚ) : R3Affine := a * scalingMatrix s s s

/-- Modelled from the spec: `R3Affine::XTranslate`, missing from the source
file; the primitive "per-axis translate by a scalar distance" is multiplied
onto the right of the matrix, like every primitive. -/
def R3Affine.XTranslate (conv : VectorConvention) (a : R3Affine) (d : ℚ) : R3Affine :=
  a * translationMatrix conv d 0 0

/-- Modelled from the spec: `R3Affine::YTranslate`, as `XTranslate`. -/
def R3Affine.YTranslate (conv : VectorConvention) (a : R3Affine) (d : ℚ) : R3Affine :=
  a * translationMatrix conv 0 d 0

/-- Modelled from the spec: `R3Affine::ZTranslate`, as `XTranslate`. -/
def R3Affine.ZTranslate (conv : VectorConvention) (a : R3Affine) (d : ℚ) : R3Affine :=
  a * translationMatrix conv 0 0 d

/-- Modelled from the spec: `R3Affine::XScale`, missing from the source file;
the primitive "per-axis scale by a scalar factor" is multiplied onto the right
of the matrix. -/
def R3Affine.XScale (a : R3Affine) (s : ℚ) : R3Affine := a * scalingMatrix s 1 1

/-- Modelled from the spec: `R3Affine::YScale`, as `XScale`. -/
def R3Affine.YScale (a : R3Affine) (s : ℚ) : R3Affine := a * scalingMatrix 1 s 1

/-- Modelled from the spec: `R3Affine::ZScale`, as `XScale`. -/
def R3Affine.ZScale (a : R3Affine) (s : ℚ) : R3Affine := a * scalingMatrix 1 1 s

/-- Modelled from the spec: `R3Affine::IsIdentity`, missing from the source
file: "the accumulated transform is not the identity". -/
def R3Affine.IsIdentity (a : R3Affine) : Bool := decide (a = R3identity_affine)

/-- Modelled from the spec: applying a transformation to a point, missing from
the source file.  The specification does not settle the side on which the
point stands, so both conventions are given: the product of the matrix with
the column vector `(x, y, z, 1)`, or of the row vector `(x, y, z, 1)` with the
matrix. -/
def R3Affine.Apply (conv : VectorConvention) (a : R3Affine) (p : R3Point) : R3Point :=
  match conv with
  | .column =>
    ⟨a 0 0 * p.x + a 0 1 * p.y + a 0 2 * p.z + a 0 3,
     a 1 0 * p.x + a 1 1 * p.y + a 1 2 * p.z + a 1 3,
     a 2 0 * p.x + a 2 1 * p.y + a 2 2 * p.z + a 2 3⟩
  | .row =>
    ⟨p.x * a 0 0 + p.y * a 1 0 + p.z * a 2 0 + a 3 0,
     p.x * a 0 1 + p.y * a 1 1 + p.z * a 2 1 + a 3 1,
     p.x * a 0 2 + p.y * a 1 2 + p.z * a 2 2 + a 3 2⟩

/-- The rotations `XRotate`, `YRotate`, `ZRotate` of `R3Affine`, as functions of
the transformation and of the angle in degrees read from the command line
(the program passes `RN_PI*atof(*argv)/180.0`).  They need trigonometry on
doubles and are taken as parameters. -/
structure R3RotateOps where
  XRotate : R3Affine → ℚ → R3Affine
  YRotate : R3Affine → ℚ → R3Affine
  ZRotate : R3Affine → ℚ → R3Affine

/-- A matrix file as `ReadMatrix` sees it: `none` when `fopen` fails, and
otherwise the numbers that successive `fscanf(fp, "%lf", ...)` calls convert,
in order, up to the first call that converts nothing (from then on no call is
taken to convert anything). -/
abbrev MatrixFile := Option (List ℚ)

/-- `ReadMatrix` of lines 147-171.  The result is `none` for the return value
0 and `some m` for the return value 1 with `m` written.  The result of
`fscanf` is not tested: when nothing is converted, `m[i][j]` receives what the
uninitialised local `value` holds, given here by `junk i j`. -/
def ReadMatrix (junk : Fin 4 → Fin 4 → ℚ) (file : MatrixFile) : Option R4Matrix :=
  match file with
  | none => none
  | some values =>
    some (Matrix.of fun i j => (values.get? (4 * i.val + j.val)).getD (junk i j))

/-- One program argument starting with `-`, with its operands already
converted by `atof`.  `other` stands for every option of `ParseArgs` that does
not touch `xform`. -/
inductive Arg where
  | scale (s : ℚ)
  | tx (d : ℚ)
  | ty (d : ℚ)
  | tz (d : ℚ)
  | sx (s : ℚ)
  | sy (s : ℚ)
  | sz (s : ℚ)
  | rx (degrees : ℚ)
  | ry (degrees : ℚ)
  | rz (degrees : ℚ)
  | xform (file : MatrixFile)
  | other (option : String)

/-- The effect on `xform` of one pass through the loop of `ParseArgs` (lines
263-311): `prev_xform` is the value of `xform` on entry. -/
def ParseArg (conv : VectorConvention) (rot : R3RotateOps) (junk : Fin 4 → Fin 4 → ℚ)
    (prev_xform : R3Affine) : Arg → R3Affine
  | .scale s => prev_xform.Scale s
  | .tx d => (R3identity_affine.XTranslate conv d).Transform prev_xform
  | .ty d => (R3identity_affine.YTranslate conv d).Transform prev_xform
  | .tz d => (R3identity_affine.ZTranslate conv d).Transform prev_xform
  | .sx s => (R3identity_affine.XScale s).Transform prev_xform
  | .sy s => (R3identity_affine.YScale s).Transform prev_xform
  | .sz s => (R3identity_affine.ZScale s).Transform prev_xform
  | .rx d => (rot.XRotate R3identity_affine d).Transform prev_xform
  | .ry d => (rot.YRotate R3identity_affine d).Transform prev_xform
  | .rz d => (rot.ZRotate R3identity_affine d).Transform prev_xform
  | .xform file =>
    match ReadMatrix junk file with
    | some m => (R3identity_affine.Transform m).Transform prev_xform
    | none => prev_xform
  | .other _ => prev_xform

/-- The value of `xform` after `ParseArgs` has gone through the arguments from
left to right, starting from the given value. -/
def ParseArgs (conv : VectorConvention) (rot : R3RotateOps) (junk : Fin 4 → Fin 4 → ℚ) :
    List Arg → R3Affine → R3Affine
  | [], xform => xform
  | arg :: rest, xform => ParseArgs conv rot junk rest (ParseArg conv rot junk xform arg)

/-- The step "Transform scene" of `main` (lines 375-382): the new
transformation of the root, given `xform` and the root's transformation. -/
def mainTransform (xform : R3Affine) (rootTransformation : R3Affine) : R3Affine :=
  if !xform.IsIdentity then
    (R3identity_affine.Transform xform).Transform rootTransformation
  else rootTransformation

/-! ## Lemmas on the scene graph -/

theorem R3SceneNode.induct {P : R3SceneNode Box → Prop}
    (h : ∀ i n b cs, (∀ c ∈ cs, P c) → P (.mk i n b cs)) : ∀ t, P t := by
  intro t
  refine @R3SceneNode.rec Box P (fun l => ∀ c ∈ l, P c) ?_ ?_ ?_ t
  · intro i n b cs ih
    exact h i n b cs ih
  · intro c hc
    cases hc
  · intro hd tl h1 h2 c hc
    rcases List.mem_cons.1 hc with rfl | hc
    · exact h1
    · exact h2 c hc

theorem mem_idsList {cs : List (R3SceneNode Box)} {x : Nat} :
    x ∈ idsList cs ↔ ∃ c ∈ cs, x ∈ c.ids := by
  induction cs with
  | nil => simp [idsList]
  | cons c cs ih => simp [idsList, ih]

theorem mem_withAncestorsList {cs : List (R3SceneNode Box)} {chain : List Nat}
    {p : List Nat × R3SceneNode Box} :
    p ∈ withAncestorsList chain cs ↔ ∃ c ∈ cs, p ∈ c.withAncestors chain := by
  induction cs with
  | nil => simp [withAncestorsList]
  | cons c cs ih => simp [withAncestorsList, ih]

theorem RemoveNodesChildren_eq (ops : R3BoxOps Box) (root : Nat) (sel : Option Nat) (box : Box)
    (chain : List Nat) (cs : List (R3SceneNode Box)) :
    RemoveNodesChildren ops root sel box chain cs
      = cs.filterMap (RemoveNodes ops root sel box chain) := by
  induction cs with
  | nil => simp [RemoveNodesChildren]
  | cons c cs ih =>
    rw [RemoveNodesChildren.eq_def]
    cases h : RemoveNodes ops root sel box chain c <;> simp [h, ih, List.filterMap_cons]

theorem RemoveNodes_none_or_some (ops : R3BoxOps Box) (root : Nat) (sel : Option Nat) (box : Box)
    (chain : List Nat) (i : Nat) (n : String) (b : Box) (cs : List (R3SceneNode Box)) :
    RemoveNodes ops root sel box chain (.mk i n b cs) = none ∨
    RemoveNodes ops root sel box chain (.mk i n b cs)
      = some (.mk i n b (RemoveNodesChildren ops root sel box (i :: chain) cs)) := by
  have key : ∀ (c : Bool) (x : R3SceneNode Box),
      (if c = true then none else some x) = none ∨ (if c = true then none else some x) = some x := by
    intro c x
    cases c <;> simp
  rw [RemoveNodes.eq_def]
  exact key _ _

theorem RemoveNodes_eq_none_iff (ops : R3BoxOps Box) (root : Nat) (sel : Option Nat) (box : Box)
    (chain : List Nat) (i : Nat) (n : String) (b : Box) (cs : List (R3SceneNode Box)) :
    RemoveNodes ops root sel box chain (.mk i n b cs) = none ↔
      ((ops.IsEmpty box = false ∧ ops.R3Intersects b box = false) ∨
        (∃ t, sel = some t ∧ i ≠ t ∧
          t ∉ idsList (RemoveNodesChildren ops root sel box (i :: chain) cs) ∧ t ∉ chain)) ∧
      RemoveNodesChildren ops root sel box (i :: chain) cs = [] ∧ i ≠ root := by
  rw [RemoveNodes.eq_def]
  cases sel with
  | none =>
    cases h1 : ops.IsEmpty box <;> cases h2 : ops.R3Intersects b box <;>
      cases h3 : RemoveNodesChildren ops root none box (i :: chain) cs <;>
      by_cases h4 : i = root <;> simp_all
  | some t =>
    cases h1 : ops.IsEmpty box <;> cases h2 : ops.R3Intersects b box <;>
      cases h3 : RemoveNodesChildren ops root (some t) box (i :: chain) cs <;>
      by_cases h4 : i = root <;> by_cases h5 : i = t <;> by_cases h6 : t ∈ chain <;>
      simp_all [IsAncestor, IsDecendent, idsList]

theorem RemoveNodes_eq_some (ops : R3BoxOps Box) (root : Nat) (sel : Option Nat) (box : Box)
    (chain : List Nat) (i : Nat) (n : String) (b : Box) (cs : List (R3SceneNode Box))
    (r : R3SceneNode Box) (h : RemoveNodes ops root sel box chain (.mk i n b cs) = some r) :
    r = .mk i n b (RemoveNodesChildren ops root sel box (i :: chain) cs) := by
  rcases RemoveNodes_none_or_some ops root sel box chain i n b cs with h1 | h1
  · rw [h1] at h
    cases h
  · rw [h1] at h
    exact (Option.some.inj h).symm

theorem liveIds_RemoveNodes_mk (ops : R3BoxOps Box) (root : Nat) (sel : Option Nat) (box : Box)
    (chain : List Nat) (i : Nat) (n : String) (b : Box) (cs : List (R3SceneNode Box)) (x : Nat) :
    x ∈ liveIds (RemoveNodes ops root sel box chain (.mk i n b cs)) ↔
      RemoveNodes ops root sel box chain (.mk i n b cs) ≠ none ∧
      (x = i ∨ x ∈ idsList (RemoveNodesChildren ops root sel box (i :: chain) cs)) := by
  rcases RemoveNodes_none_or_some ops root sel box chain i n b cs with h | h
  · simp [h, liveIds]
  · simp [h, liveIds, R3SceneNode.ids]

theorem mem_idsList_filterMap (f : R3SceneNode Box → Option (R3SceneNode Box))
    (cs : List (R3SceneNode Box)) (x : Nat) :
    x ∈ idsList (cs.filterMap f) ↔ ∃ c ∈ cs, x ∈ liveIds (f c) := by
  induction cs with
  | nil => simp [idsList]
  | cons c cs ih =>
    rw [List.filterMap_cons]
    cases h : f c with
    | none => simp [ih, liveIds, h]
    | some r => simp [idsList, ih, liveIds, h]

theorem liveIds_subset (ops : R3BoxOps Box) (root : Nat) (sel : Option Nat) (box : Box) :
    ∀ (n : R3SceneNode Box) (chain : List Nat) (x : Nat),
      x ∈ liveIds (RemoveNodes ops root sel box chain n) → x ∈ n.ids := by
  intro n
  induction n using R3SceneNode.induct with
  | h i n b cs ih =>
    intro chain x hx
    rw [liveIds_RemoveNodes_mk, RemoveNodesChildren_eq, mem_idsList_filterMap] at hx
    rcases hx.2 with rfl | ⟨c, hc, hxc⟩
    · simp [R3SceneNode.ids]
    · have := ih c hc _ _ hxc
      simp only [R3SceneNode.ids, List.mem_cons]
      exact Or.inr (mem_idsList.2 ⟨c, hc, this⟩)

theorem nodup_ids_of_mem {cs : List (R3SceneNode Box)} (h : (idsList cs).Nodup)
    {c : R3SceneNode Box} (hc : c ∈ cs) : c.ids.Nodup := by
  induction cs with
  | nil => cases hc
  | cons a l ih =>
    rw [idsList, List.nodup_append] at h
    rcases List.mem_cons.1 hc with rfl | hc
    · exact h.1
    · exact ih h.2.1 hc

theorem ids_unique {cs : List (R3SceneNode Box)} (h : (idsList cs).Nodup)
    {c k : R3SceneNode Box} (hc : c ∈ cs) (hk : k ∈ cs) {x : Nat}
    (hxc : x ∈ c.ids) (hxk : x ∈ k.ids) : c = k := by
  induction cs with
  | nil => cases hc
  | cons a l ih =>
    rw [idsList, List.nodup_append] at h
    obtain ⟨_, h2, h3⟩ := h
    rcases List.mem_cons.1 hc with hc1 | hc1 <;> rcases List.mem_cons.1 hk with hk1 | hk1
    · rw [hc1, hk1]
    · rw [hc1] at hxc
      exact (h3 hxc (mem_idsList.2 ⟨k, hk1, hxk⟩)).elim
    · rw [hk1] at hxk
      exact (h3 hxk (mem_idsList.2 ⟨c, hc1, hxc⟩)).elim
    · exact ih h2 hc1 hk1

theorem self_mem_withAncestors (n : R3SceneNode Box) (chain : List Nat) :
    (chain, n) ∈ n.withAncestors chain := by
  cases n with
  | mk i nm b cs => simp [R3SceneNode.withAncestors]

theorem id_mem_ids (n : R3SceneNode Box) : n.id ∈ n.ids := by
  cases n with
  | mk i nm b cs => simp [R3SceneNode.ids, R3SceneNode.id]

theorem ids_eq (n : R3SceneNode Box) : n.ids = n.id :: idsList n.children := by
  cases n with
  | mk i nm b cs => simp [R3SceneNode.ids, R3SceneNode.id, R3SceneNode.children]

theorem mem_withAncestors_id : ∀ (n : R3SceneNode Box) (chain : List Nat)
    (p : List Nat × R3SceneNode Box), p ∈ n.withAncestors chain → p.2.id ∈ n.ids := by
  intro n
  induction n using R3SceneNode.induct with
  | h i nm b cs ih =>
    intro chain p hp
    rw [R3SceneNode.withAncestors, List.mem_cons] at hp
    rcases hp with rfl | hp
    · exact id_mem_ids _
    · obtain ⟨c, hc, hpc⟩ := mem_withAncestorsList.1 hp
      rw [R3SceneNode.ids]
      exact List.mem_cons_of_mem _ (mem_idsList.2 ⟨c, hc, ih c hc _ _ hpc⟩)

theorem mem_liveIds_child_iff (ops : R3BoxOps Box) (root : Nat) (sel : Option Nat) (box : Box)
    (chain : List Nat) (i : Nat) (n : String) (b : Box) (cs : List (R3SceneNode Box))
    (hnd : (R3SceneNode.mk i n b cs).ids.Nodup) {c : R3SceneNode Box} (hc : c ∈ cs) {x : Nat}
    (hx : x ∈ c.ids) :
    x ∈ liveIds (RemoveNodes ops root sel box chain (.mk i n b cs)) ↔
      x ∈ liveIds (RemoveNodes ops root sel box (i :: chain) c) := by
  rw [R3SceneNode.ids, List.nodup_cons] at hnd
  have hxcs : x ∈ idsList cs := mem_idsList.2 ⟨c, hc, hx⟩
  have hxi : x ≠ i := fun h => hnd.1 (h ▸ hxcs)
  rw [liveIds_RemoveNodes_mk, RemoveNodesChildren_eq, mem_idsList_filterMap]
  constructor
  · rintro ⟨_, h | ⟨k, hk, hxk⟩⟩
    · exact (hxi h).elim
    · have hk2 := liveIds_subset ops root sel box k _ _ hxk
      rw [ids_unique hnd.2 hc hk hx hk2]
      exact hxk
  · intro h
    refine ⟨?_, Or.inr ⟨c, hc, h⟩⟩
    intro hnone
    have h2 := ((RemoveNodes_eq_none_iff ops root sel box chain i n b cs).1 hnone).2.1
    rw [RemoveNodesChildren_eq, List.filterMap_eq_nil_iff] at h2
    rw [h2 c hc] at h
    simp [liveIds] at h

/-- The survivors of the recursive `RemoveNodes`: a node of the visited subtree
is left if and only if it is the scene root or its own subtree holds a node
that passes the retention test by itself. -/
theorem RemoveNodes_live_iff (ops : R3BoxOps Box) (root : Nat) (sel : Option Nat) (box : Box) :
    ∀ (n : R3SceneNode Box) (chain : List Nat), n.ids.Nodup → root ∉ idsList n.children →
      ∀ p ∈ n.withAncestors chain,
        (p.2.id ∈ liveIds (RemoveNodes ops root sel box chain n) ↔
          p.2.id = root ∨ ∃ q ∈ p.2.withAncestors p.1, Passes ops sel box q) := by
  intro n
  induction n using R3SceneNode.induct with
  | h i nm b cs ih =>
    intro chain hnd hroot p hp
    have hnd2 := hnd
    rw [R3SceneNode.ids, List.nodup_cons] at hnd2
    simp only [R3SceneNode.children] at hroot
    -- the statement for the children, already in the form needed
    have ihc : ∀ c ∈ cs, ∀ q ∈ c.withAncestors (i :: chain),
        (q.2.id ∈ liveIds (RemoveNodes ops root sel box (i :: chain) c) ↔
          ∃ q2 ∈ q.2.withAncestors q.1, Passes ops sel box q2) := by
      intro c hc q hq
      have hcn : c.ids.Nodup := nodup_ids_of_mem hnd2.2 hc
      have hcr : root ∉ c.ids := fun h => hroot (mem_idsList.2 ⟨c, hc, h⟩)
      have hcr2 : root ∉ idsList c.children := by
        rw [ids_eq] at hcr
        exact fun h => hcr (List.mem_cons_of_mem _ h)
      rw [ih c hc (i :: chain) hcn hcr2 q hq]
      have : q.2.id ≠ root := fun h => hcr (h ▸ mem_withAncestors_id c _ q hq)
      simp [this]
    rw [R3SceneNode.withAncestors, List.mem_cons] at hp
    rcases hp with rfl | hp
    · -- the node itself
      simp only [R3SceneNode.id]
      rw [liveIds_RemoveNodes_mk]
      simp only [true_or, and_true, ne_eq]
      rw [RemoveNodes_eq_none_iff, RemoveNodesChildren_eq, List.filterMap_eq_nil_iff]
      have hkids : (∀ c ∈ cs, RemoveNodes ops root sel box (i :: chain) c = none) ↔
          ¬ ∃ q ∈ withAncestorsList (i :: chain) cs, Passes ops sel box q := by
        constructor
        · rintro h ⟨q, hq, hpass⟩
          obtain ⟨c, hc, hqc⟩ := mem_withAncestorsList.1 hq
          have := (ihc c hc q hqc).2 ⟨q, self_mem_withAncestors _ _, hpass⟩
          rw [h c hc] at this
          simp [liveIds] at this
        · intro h c hc
          by_contra hne
          obtain ⟨r, hr⟩ := Option.ne_none_iff_exists'.1 hne
          have hrid : c.id ∈ liveIds (RemoveNodes ops root sel box (i :: chain) c) := by
            cases c with
            | mk ci cn cb ccs =>
              rw [RemoveNodes_eq_some _ _ _ _ _ _ _ _ _ _ hr] at hr
              rw [hr]
              simp [liveIds, R3SceneNode.ids, R3SceneNode.id]
          obtain ⟨q2, hq2, hpass⟩ := (ihc c hc (i :: chain, c) (self_mem_withAncestors _ _)).1 hrid
          exact h ⟨q2, mem_withAncestorsList.2 ⟨c, hc, hq2⟩, hpass⟩
      rw [hkids]
      have hR : (∃ q ∈ (R3SceneNode.mk i nm b cs).withAncestors chain, Passes ops sel box q) ↔
          (Passes ops sel box (chain, R3SceneNode.mk i nm b cs) ∨
            ∃ q ∈ withAncestorsList (i :: chain) cs, Passes ops sel box q) := by
        rw [R3SceneNode.withAncestors]
        simp only [List.mem_cons, exists_eq_or_imp]
      rw [hR]
      by_cases hir : i = root
      · simp [hir]
      by_cases hk : ∃ q ∈ withAncestorsList (i :: chain) cs, Passes ops sel box q
      · simp [hk]
      · have hnil : List.filterMap (RemoveNodes ops root sel box (i :: chain)) cs = [] :=
          List.filterMap_eq_nil_iff.2 (hkids.2 hk)
        simp only [hk, hnil, idsList, not_false_eq_true, true_and, hir, ne_eq, and_true,
          or_false, false_or, List.not_mem_nil]
        simp only [Passes, R3SceneNode.bbox, R3SceneNode.id]
        clear ih ihc hkids hR hnd hnd2 hroot hnil hk
        cases h1 : ops.IsEmpty box <;> cases h2 : ops.R3Intersects b box <;> cases sel <;>
          simp
        all_goals tauto
    · -- a node below one of the children
      obtain ⟨c, hc, hpc⟩ := mem_withAncestorsList.1 hp
      rw [mem_liveIds_child_iff ops root sel box chain i nm b cs hnd hc
        (mem_withAncestors_id c _ p hpc), ihc c hc p hpc]
      have : p.2.id ≠ root :=
        fun h => hroot (mem_idsList.2 ⟨c, hc, h ▸ mem_withAncestors_id c _ p hpc⟩)
      simp [this]

theorem exists_mem_withAncestors : ∀ (n : R3SceneNode Box) (chain : List Nat) (t : Nat),
    t ∈ n.ids → ∃ p ∈ n.withAncestors chain, p.2.id = t := by
  intro n
  induction n using R3SceneNode.induct with
  | h i nm b cs ih =>
    intro chain t ht
    rw [R3SceneNode.ids, List.mem_cons] at ht
    rcases ht with rfl | ht
    · exact ⟨_, self_mem_withAncestors _ _, rfl⟩
    · obtain ⟨c, hc, htc⟩ := mem_idsList.1 ht
      obtain ⟨p, hp, hpt⟩ := ih c hc (i :: chain) t htc
      refine ⟨p, ?_, hpt⟩
      rw [R3SceneNode.withAncestors]
      exact List.mem_cons_of_mem _ (mem_withAncestorsList.2 ⟨c, hc, hp⟩)

theorem chain_mem_of_mem_withAncestors : ∀ (n : R3SceneNode Box) (chain : List Nat)
    (p : List Nat × R3SceneNode Box), p ∈ n.withAncestors chain →
    ∀ x ∈ p.1, x ∈ chain ∨ x ∈ n.ids := by
  intro n
  induction n using R3SceneNode.induct with
  | h i nm b cs ih =>
    intro chain p hp x hx
    rw [R3SceneNode.withAncestors, List.mem_cons] at hp
    rcases hp with rfl | hp
    · exact Or.inl hx
    · obtain ⟨c, hc, hpc⟩ := mem_withAncestorsList.1 hp
      rw [R3SceneNode.ids]
      rcases ih c hc _ p hpc x hx with h | h
      · rcases List.mem_cons.1 h with rfl | h
        · exact Or.inr (List.mem_cons_self _ _)
        · exact Or.inl h
      · exact Or.inr (List.mem_cons_of_mem _ (mem_idsList.2 ⟨c, hc, h⟩))

theorem withAncestors_trans : ∀ (n : R3SceneNode Box) (chain : List Nat)
    (p q : List Nat × R3SceneNode Box), p ∈ n.withAncestors chain →
    q ∈ p.2.withAncestors p.1 → q ∈ n.withAncestors chain := by
  intro n
  induction n using R3SceneNode.induct with
  | h i nm b cs ih =>
    intro chain p q hp hq
    rw [R3SceneNode.withAncestors, List.mem_cons] at hp
    rcases hp with rfl | hp
    · exact hq
    · obtain ⟨c, hc, hpc⟩ := mem_withAncestorsList.1 hp
      rw [R3SceneNode.withAncestors]
      exact List.mem_cons_of_mem _ (mem_withAncestorsList.2 ⟨c, hc, ih c hc _ p q hpc hq⟩)

theorem root_unique (n : R3SceneNode Box) (hnd : n.ids.Nodup) (chain : List Nat)
    (p : List Nat × R3SceneNode Box) (hp : p ∈ n.withAncestors chain) (hid : p.2.id = n.id) :
    p = (chain, n) := by
  cases n with
  | mk i nm b cs =>
    rw [R3SceneNode.withAncestors, List.mem_cons] at hp
    rcases hp with rfl | hp
    · rfl
    · obtain ⟨c, hc, hpc⟩ := mem_withAncestorsList.1 hp
      rw [R3SceneNode.ids, List.nodup_cons] at hnd
      have := mem_idsList.2 ⟨c, hc, mem_withAncestors_id c _ p hpc⟩
      rw [hid] at this
      exact (hnd.1 this).elim

theorem root_not_mem_children (n : R3SceneNode Box) (hnd : n.ids.Nodup) :
    n.id ∉ idsList n.children := by
  rw [ids_eq, List.nodup_cons] at hnd
  exact hnd.1

theorem Node_eq_some (scene : R3Scene Box) (name : String) (t : Nat)
    (h : scene.Node name = some t) : t ∈ scene.root.ids := by
  unfold R3Scene.Node at h
  rw [Option.map_eq_some'] at h
  obtain ⟨p, hp, rfl⟩ := h
  exact mem_withAncestors_id _ _ p (List.mem_of_find?_eq_some hp)

theorem RemoveNodesScene_found (ops : R3BoxOps Box) (name : String) (box : Box)
    (scene : R3Scene Box) (t : Nat) (h : scene.Node name = some t) :
    RemoveNodesScene ops (some name) box scene =
      Pruned.mk 1 (RemoveNodes ops scene.root.id (some t) box [] scene.root)
        scene.root.postOrder := by
  simp [RemoveNodesScene, h]

theorem RemoveNodesScene_bbox (ops : R3BoxOps Box) (box : Box)
    (scene : R3Scene Box) (h : ops.IsEmpty box = false) :
    RemoveNodesScene ops none box scene =
      Pruned.mk 1 (RemoveNodes ops scene.root.id none box [] scene.root)
        scene.root.postOrder := by
  simp [RemoveNodesScene, h]

theorem chain_subset : ∀ (n : R3SceneNode Box) (chain : List Nat)
    (p : List Nat × R3SceneNode Box), p ∈ n.withAncestors chain → ∀ x ∈ chain, x ∈ p.1 := by
  intro n
  induction n using R3SceneNode.induct with
  | h i nm b cs ih =>
    intro chain p hp x hx
    rw [R3SceneNode.withAncestors, List.mem_cons] at hp
    rcases hp with rfl | hp
    · exact hx
    · obtain ⟨c, hc, hpc⟩ := mem_withAncestorsList.1 hp
      exact ih c hc _ p hpc x (List.mem_cons_of_mem _ hx)

theorem mem_withAncestors_self_or (n : R3SceneNode Box) (chain : List Nat)
    (q : List Nat × R3SceneNode Box) (hq : q ∈ n.withAncestors chain) :
    q = (chain, n) ∨ n.id ∈ q.1 := by
  cases n with
  | mk i nm b cs =>
    rw [R3SceneNode.withAncestors, List.mem_cons] at hq
    rcases hq with h | hq
    · exact Or.inl h
    · obtain ⟨c, hc, hqc⟩ := mem_withAncestorsList.1 hq
      exact Or.inr (chain_subset c _ q hqc i (List.mem_cons_self _ _))

theorem withAncestors_unique : ∀ (n : R3SceneNode Box) (chain : List Nat), n.ids.Nodup →
    ∀ p ∈ n.withAncestors chain, ∀ q ∈ n.withAncestors chain, p.2.id = q.2.id → p = q := by
  intro n
  induction n using R3SceneNode.induct with
  | h i nm b cs ih =>
    intro chain hnd p hp q hq hid
    have hp1 := root_unique _ hnd chain p hp
    have hq1 := root_unique _ hnd chain q hq
    have hnd2 := hnd
    rw [R3SceneNode.ids, List.nodup_cons] at hnd2
    rw [R3SceneNode.withAncestors, List.mem_cons] at hp hq
    rcases hp with hp | hp
    · rw [hp] at hid
      rw [hp, hq1 hid.symm]
    · rcases hq with hq | hq
      · rw [hq] at hid
        rw [hq, hp1 hid]
      · obtain ⟨c, hc, hpc⟩ := mem_withAncestorsList.1 hp
        obtain ⟨k, hk, hqk⟩ := mem_withAncestorsList.1 hq
        have h1 := mem_withAncestors_id c _ p hpc
        have h2 := mem_withAncestors_id k _ q hqk
        rw [hid] at h1
        have hck := ids_unique hnd2.2 hc hk h1 h2
        rw [← hck] at hqk
        exact ih c hc _ (nodup_ids_of_mem hnd2.2 hc) p hpc q hqk hid

/-! ## The pruner -/

/-- C1 (as amended): for every scene and every subtree-filter target T found in
the scene, if the bbox filter is not active, or the subtree of T, T included,
holds a node whose world bounding box intersects the filter box, then
RemoveNodes succeeds and afterwards the node T and every ancestor of T are
still in the scene. -/
theorem C1_target_and_ancestors_survive (ops : R3BoxOps Box) (name : String) (box : Box)
    (scene : R3Scene Box) (t : Nat) (hnd : scene.root.ids.Nodup)
    (hfound : scene.Node name = some t)
    (hbox : ops.IsEmpty box = true ∨
      ∃ pT ∈ scene.root.withAncestors [], pT.2.id = t ∧
        ∃ q ∈ pT.2.withAncestors pT.1, ops.R3Intersects q.2.bbox box = true) :
    (RemoveNodesScene ops (some name) box scene).status = 1 ∧
    ∀ m ∈ scene.root.withAncestors [], (m.2.id = t ∨ t ∈ idsList m.2.children) →
      m.2.id ∈ liveIds (RemoveNodesScene ops (some name) box scene).root := by
  rw [RemoveNodesScene_found ops name box scene t hfound]
  refine ⟨rfl, ?_⟩
  intro m hm hrel
  rw [RemoveNodes_live_iff ops scene.root.id (some t) box scene.root [] hnd
    (root_not_mem_children _ hnd) m hm]
  right
  have ht : t ∈ m.2.ids := by
    rw [ids_eq]
    rcases hrel with h | h
    · exact h ▸ List.mem_cons_self _ _
    · exact List.mem_cons_of_mem _ h
  obtain ⟨q0, hq0, hq0t⟩ := exists_mem_withAncestors m.2 m.1 t ht
  rcases hbox with hempty | ⟨pT, hpT, hpTt, q, hq, hhit⟩
  · refine ⟨q0, hq0, Or.inl hempty, ?_⟩
    intro t2 ht2
    cases ht2
    exact Or.inl hq0t
  · have heq : q0 = pT :=
      withAncestors_unique scene.root [] hnd q0 (withAncestors_trans _ _ m q0 hm hq0) pT hpT
        (hq0t.trans hpTt.symm)
    rw [← heq] at hq
    refine ⟨q, withAncestors_trans _ _ q0 q hq0 hq, Or.inr hhit, ?_⟩
    intro t2 ht2
    cases ht2
    rcases mem_withAncestors_self_or q0.2 q0.1 q hq with h | h
    · rw [h]
      exact Or.inl hq0t
    · rw [hq0t] at h
      exact Or.inr h

/-- C1 witness: in `sceneRPQ` with target `P` under the filter box `unitBox`,
the box of `P` misses the filter box but that of its child `Q` intersects it;
`P` and its ancestor `R` are left. -/
theorem C1_target_and_ancestors_survive_witness :
    sceneRPQ.root.ids.Nodup ∧ sceneRPQ.Node "P" = some 7 ∧
    intBoxOps.IsEmpty unitBox = false ∧ intBoxOps.R3Intersects nodeP.bbox unitBox = false ∧
    (RemoveNodesScene intBoxOps (some "P") unitBox sceneRPQ).status = 1 ∧
    7 ∈ liveIds (RemoveNodesScene intBoxOps (some "P") unitBox sceneRPQ).root ∧
    0 ∈ liveIds (RemoveNodesScene intBoxOps (some "P") unitBox sceneRPQ).root :=
  have hP : ([0], nodeP) ∈ sceneRPQ.root.withAncestors [] := by
    simp [sceneRPQ, R3SceneNode.withAncestors, withAncestorsList, nodeP, leaf]
  have hQ : ([7, 0], leaf 8 "Q" ⟨0, 0, 0, 1, 1, 1⟩) ∈ nodeP.withAncestors [0] := by
    simp [R3SceneNode.withAncestors, withAncestorsList, nodeP, leaf]
  have h := C1_target_and_ancestors_survive intBoxOps "P" unitBox sceneRPQ 7
    (by decide) (by decide) (Or.inr ⟨_, hP, rfl, _, hQ, by decide⟩)
  ⟨by decide, by decide, by decide, by decide, h.1,
    h.2 ([0], nodeP) hP (Or.inl (by decide)),
    h.2 ([], sceneRPQ.root) (self_mem_withAncestors _ _) (Or.inr (by decide))⟩

/-- C1 counterexample: with the bbox filter active, the target `T` of
`sceneRT` is found, its box misses the filter box, and `T` is deleted. -/
theorem C1_counterexample :
    sceneRT.Node "T" = some 1 ∧
    (RemoveNodesScene intBoxOps (some "T") unitBox sceneRT).status = 1 ∧
    1 ∉ liveIds (RemoveNodesScene intBoxOps (some "T") unitBox sceneRT).root := by
  decide

theorem ancestors_live (ops : R3BoxOps Box) (root : Nat) (sel : Option Nat) (box : Box) :
    ∀ (n : R3SceneNode Box) (chain : List Nat), n.ids.Nodup →
      ∀ p ∈ n.withAncestors chain, p.2.id ∈ liveIds (RemoveNodes ops root sel box chain n) →
        ∀ a ∈ p.1, a ∈ chain ∨ a ∈ liveIds (RemoveNodes ops root sel box chain n) := by
  intro n
  induction n using R3SceneNode.induct with
  | h i nm b cs ih =>
    intro chain hnd p hp hlive a ha
    have hnd2 := hnd
    rw [R3SceneNode.ids, List.nodup_cons] at hnd2
    rw [R3SceneNode.withAncestors, List.mem_cons] at hp
    rcases hp with rfl | hp
    · exact Or.inl ha
    · obtain ⟨c, hc, hpc⟩ := mem_withAncestorsList.1 hp
      have hsome := ((liveIds_RemoveNodes_mk ops root sel box chain i nm b cs _).1 hlive).1
      rw [mem_liveIds_child_iff ops root sel box chain i nm b cs hnd hc
        (mem_withAncestors_id c _ p hpc)] at hlive
      rcases ih c hc (i :: chain) (nodup_ids_of_mem hnd2.2 hc) p hpc hlive a ha with h | h
      · rcases List.mem_cons.1 h with rfl | h
        · exact Or.inr ((liveIds_RemoveNodes_mk ops root sel box chain a nm b cs a).2
            ⟨hsome, Or.inl rfl⟩)
        · exact Or.inl h
      · exact Or.inr ((mem_liveIds_child_iff ops root sel box chain i nm b cs hnd hc
          (liveIds_subset ops root sel box c _ a h)).2 h)

/-- C2: for every node visited by RemoveNodes, under every setting of the bbox
and subtree filters, a node that still has at least one child after its
children have been recursively pruned is not removed (it is returned with
exactly those children), whatever the two predicates say of the node itself;
and every proper ancestor, in particular the parent, of a node that is left
inside the visited subtree is left as well. -/
theorem C2_child_retention (ops : R3BoxOps Box) (root : Nat) (sel : Option Nat) (box : Box)
    (chain : List Nat) (n : R3SceneNode Box) (hnd : n.ids.Nodup) :
    (RemoveNodesChildren ops root sel box (n.id :: chain) n.children ≠ [] →
      RemoveNodes ops root sel box chain n =
        some (.mk n.id n.name n.bbox
          (RemoveNodesChildren ops root sel box (n.id :: chain) n.children))) ∧
    (∀ p ∈ n.withAncestors chain, p.2.id ∈ liveIds (RemoveNodes ops root sel box chain n) →
      ∀ a ∈ p.1, a ∈ chain ∨ a ∈ liveIds (RemoveNodes ops root sel box chain n)) := by
  refine ⟨?_, ancestors_live ops root sel box n chain hnd⟩
  cases n with
  | mk i nm b cs =>
    intro hne
    simp only [R3SceneNode.id, R3SceneNode.name, R3SceneNode.bbox, R3SceneNode.children] at hne ⊢
    rcases RemoveNodes_none_or_some ops root sel box chain i nm b cs with h | h
    · exact (hne ((RemoveNodes_eq_none_iff ops root sel box chain i nm b cs).1 h).2.1).elim
    · exact h

/-- C2 witness: `nodeP`, visited below a root 0 under the filter box `unitBox`,
fails the bbox test of its own but keeps its child `Q`: it is returned with
that child, and the parent 7 of the surviving `Q` is left. -/
theorem C2_child_retention_witness :
    nodeP.ids.Nodup ∧ intBoxOps.IsEmpty unitBox = false ∧
    intBoxOps.R3Intersects nodeP.bbox unitBox = false ∧
    RemoveNodesChildren intBoxOps 0 none unitBox (nodeP.id :: [0]) nodeP.children ≠ [] ∧
    RemoveNodes intBoxOps 0 none unitBox [0] nodeP =
      some (.mk nodeP.id nodeP.name nodeP.bbox
        (RemoveNodesChildren intBoxOps 0 none unitBox (nodeP.id :: [0]) nodeP.children)) ∧
    (7 ∈ [0] ∨ 7 ∈ liveIds (RemoveNodes intBoxOps 0 none unitBox [0] nodeP)) :=
  have h := C2_child_retention intBoxOps 0 none unitBox [0] nodeP (by decide)
  have hne : RemoveNodesChildren intBoxOps 0 none unitBox (nodeP.id :: [0]) nodeP.children ≠ [] :=
    fun h0 => absurd (congrArg List.length h0) (by decide)
  ⟨by decide, by decide, by decide, hne, h.1 hne,
    h.2 ([7, 0], leaf 8 "Q" ⟨0, 0, 0, 1, 1, 1⟩)
      (by simp [nodeP, R3SceneNode.withAncestors, withAncestorsList, leaf])
      (by decide) 7 (by decide)⟩

/-- C3: for every scene, every bbox filter and every subtree name, the scene
root is still there after RemoveNodes, with its identity, name and box; also
when it fails the bbox predicate and all of its children are removed. -/
theorem C3_root_never_removed (ops : R3BoxOps Box) (name : Option String) (box : Box)
    (scene : R3Scene Box) :
    ∃ live, (RemoveNodesScene ops name box scene).root =
      some (.mk scene.root.id scene.root.name scene.root.bbox live) := by
  have key : ∀ sel, ∃ live, RemoveNodes ops scene.root.id sel box [] scene.root =
      some (.mk scene.root.id scene.root.name scene.root.bbox live) := by
    intro sel
    cases hr : scene.root with
    | mk i nm b cs =>
      simp only [R3SceneNode.id, R3SceneNode.name, R3SceneNode.bbox]
      rcases RemoveNodes_none_or_some ops i sel box [] i nm b cs with h | h
      · exact (((RemoveNodes_eq_none_iff ops i sel box [] i nm b cs).1 h).2.2 rfl).elim
      · exact ⟨_, h⟩
  have same : ∃ live, some scene.root =
      some (R3SceneNode.mk scene.root.id scene.root.name scene.root.bbox live) := by
    cases scene.root with
    | mk i nm b cs => exact ⟨cs, rfl⟩
  unfold RemoveNodesScene
  split
  · exact same
  · split
    · split
      · exact same
      · exact key _
    · exact key _

/-- C4: with only the subtree filter active (empty bbox filter) and a target T
found in the scene, RemoveNodes succeeds and a node of the scene is left if and
only if it is T, an ancestor of T (T is among its proper descendants) or a
descendant of T (T is on its parent chain); nothing else is left. -/
theorem C4_subtree_filter_exact (ops : R3BoxOps Box) (name : String) (box : Box)
    (scene : R3Scene Box) (t : Nat) (hnd : scene.root.ids.Nodup)
    (hempty : ops.IsEmpty box = true) (hfound : scene.Node name = some t) :
    (RemoveNodesScene ops (some name) box scene).status = 1 ∧
    (∀ p ∈ scene.root.withAncestors [],
      (p.2.id ∈ liveIds (RemoveNodesScene ops (some name) box scene).root ↔
        (p.2.id = t ∨ t ∈ idsList p.2.children ∨ t ∈ p.1))) ∧
    ∀ x ∈ liveIds (RemoveNodesScene ops (some name) box scene).root, x ∈ scene.root.ids := by
  rw [RemoveNodesScene_found ops name box scene t hfound]
  refine ⟨rfl, ?_, fun x hx => liveIds_subset ops _ _ box _ _ x hx⟩
  intro p hp
  rw [RemoveNodes_live_iff ops scene.root.id (some t) box scene.root [] hnd
    (root_not_mem_children _ hnd) p hp]
  have hids : (p.2.id = t ∨ t ∈ idsList p.2.children ∨ t ∈ p.1) ↔ (t ∈ p.2.ids ∨ t ∈ p.1) := by
    rw [ids_eq, List.mem_cons]
    constructor
    · rintro (h | h | h)
      · exact Or.inl (Or.inl h.symm)
      · exact Or.inl (Or.inr h)
      · exact Or.inr h
    · rintro ((h | h) | h)
      · exact Or.inl h.symm
      · exact Or.inr (Or.inl h)
      · exact Or.inr (Or.inr h)
  rw [hids]
  constructor
  · rintro (h | ⟨q, hq, hpass⟩)
    · have := root_unique scene.root hnd [] p hp h
      rw [this]
      exact Or.inl (Node_eq_some scene name t hfound)
    · rcases hpass.2 t rfl with h | h
      · exact Or.inl (h ▸ mem_withAncestors_id _ _ q hq)
      · rcases chain_mem_of_mem_withAncestors _ _ q hq t h with h2 | h2
        · exact Or.inr h2
        · exact Or.inl h2
  · rintro (h | h)
    · obtain ⟨q, hq, hqt⟩ := exists_mem_withAncestors p.2 p.1 t h
      refine Or.inr ⟨q, hq, Or.inl hempty, ?_⟩
      intro t2 ht2
      cases ht2
      exact Or.inl hqt
    · refine Or.inr ⟨p, self_mem_withAncestors _ _, Or.inl hempty, ?_⟩
      intro t2 ht2
      cases ht2
      exact Or.inr h

/-- C4 witness: in `sceneSubtree` with target `T`, the descendant `E` of `T` is
left (its parent chain is `D`, `T`, `R`) and the unrelated node `A` is not. -/
theorem C4_subtree_filter_exact_witness :
    sceneSubtree.root.ids.Nodup ∧ intBoxOps.IsEmpty noBox = true ∧
    sceneSubtree.Node "T" = some 3 ∧
    (5 ∈ liveIds (RemoveNodesScene intBoxOps (some "T") noBox sceneSubtree).root ↔
      (5 = 3 ∨ 3 ∈ idsList (leaf 5 "E" ⟨5, 5, 5, 6, 6, 6⟩).children ∨ 3 ∈ [4, 3, 0])) ∧
    1 ∉ liveIds (RemoveNodesScene intBoxOps (some "T") noBox sceneSubtree).root :=
  have h := C4_subtree_filter_exact intBoxOps "T" noBox sceneSubtree 3
    (by decide) (by decide) (by decide)
  ⟨by decide, by decide, by decide,
    h.2.1 ([4, 3, 0], leaf 5 "E" ⟨5, 5, 5, 6, 6, 6⟩)
      (by simp [sceneSubtree, R3SceneNode.withAncestors, withAncestorsList, nodeT, nodeA, leaf]),
    by decide⟩

/-- C5: with only the bbox filter active (non-empty filter box, no subtree
name), a non-root node of the scene is left by RemoveNodes if and only if its
subtree, itself included, holds a node whose world bounding box intersects
the filter box. -/
theorem C5_bbox_filter_exact (ops : R3BoxOps Box) (box : Box) (scene : R3Scene Box)
    (hnd : scene.root.ids.Nodup) (hactive : ops.IsEmpty box = false) :
    ∀ p ∈ scene.root.withAncestors [], p.2.id ≠ scene.root.id →
      (p.2.id ∈ liveIds (RemoveNodesScene ops none box scene).root ↔
        ∃ q ∈ p.2.withAncestors p.1, ops.R3Intersects q.2.bbox box = true) := by
  intro p hp hne
  rw [RemoveNodesScene_bbox ops box scene hactive]
  rw [RemoveNodes_live_iff ops scene.root.id none box scene.root [] hnd
    (root_not_mem_children _ hnd) p hp]
  simp [hne, Passes, hactive]

/-- C5 witness, the scenario of the specification: in `sceneRABC` under the
filter box `unitBox`, `A` is removed, and `B` and `C` are left. -/
theorem C5_bbox_filter_exact_witness :
    sceneRABC.root.ids.Nodup ∧ intBoxOps.IsEmpty unitBox = false ∧
    1 ∉ liveIds (RemoveNodesScene intBoxOps none unitBox sceneRABC).root ∧
    2 ∈ liveIds (RemoveNodesScene intBoxOps none unitBox sceneRABC).root ∧
    3 ∈ liveIds (RemoveNodesScene intBoxOps none unitBox sceneRABC).root :=
  have h := C5_bbox_filter_exact intBoxOps unitBox sceneRABC (by decide) (by decide)
  have hC : ([2, 0], leaf 3 "C" ⟨0, 0, 0, 1, 1, 1⟩) ∈ sceneRABC.root.withAncestors [] := by
    simp [sceneRABC, R3SceneNode.withAncestors, withAncestorsList, leaf]
  have hA : ([0], leaf 1 "A" ⟨5, 5, 5, 6, 6, 6⟩) ∈ sceneRABC.root.withAncestors [] := by
    simp [sceneRABC, R3SceneNode.withAncestors, withAncestorsList, leaf]
  ⟨by decide, by decide,
    fun hlive => by
      have := (h _ hA (by decide)).1 hlive
      simp [leaf, R3SceneNode.withAncestors, withAncestorsList, R3SceneNode.bbox, intBoxOps,
        unitBox] at this,
    by decide,
    (h _ hC (by decide)).2 ⟨_, self_mem_withAncestors _ _, by decide⟩⟩

/-- C6: for every scene, when the bbox filter is empty and no subtree name is
given, RemoveNodes returns 1, runs the recursive function on no node and
leaves the very same tree behind: the same nodes in the same order, each with
the same parent chain and the same child array; `main` does not even call
it. -/
theorem C6_no_filter_noop (ops : R3BoxOps Box) (box : Box) (scene : R3Scene Box)
    (hempty : ops.IsEmpty box = true) :
    RemoveNodesScene ops none box scene = Pruned.mk 1 (some scene.root) [] ∧
    liveIds (RemoveNodesScene ops none box scene).root = scene.root.ids ∧
    (RemoveNodesScene ops none box scene).root.map (R3SceneNode.withAncestors [])
      = some (scene.root.withAncestors []) ∧
    mainRemoveNodes ops none box scene = .ok (some scene.root, []) := by
  simp [RemoveNodesScene, mainRemoveNodes, hempty, liveIds]

/-- C6 witness: `sceneSubtree` without filters keeps its seven nodes. -/
theorem C6_no_filter_noop_witness :
    intBoxOps.IsEmpty noBox = true ∧
    RemoveNodesScene intBoxOps none noBox sceneSubtree = Pruned.mk 1 (some sceneSubtree.root) [] ∧
    liveIds (RemoveNodesScene intBoxOps none noBox sceneSubtree).root = [0, 1, 2, 3, 4, 5, 6] :=
  have h := C6_no_filter_noop intBoxOps noBox sceneSubtree (by decide)
  ⟨by decide, h.1, h.2.1⟩

/-- C7: for every scene and every bbox filter, when the subtree name is not
found by the scene's lookup, RemoveNodes returns 0, has run the recursive
function on no node and leaves the very same tree behind (also when the bbox
filter is active); `main` then ends the run with exit status -1. -/
theorem C7_target_not_found (ops : R3BoxOps Box) (name : String) (box : Box)
    (scene : R3Scene Box) (hmissing : scene.Node name = none) :
    RemoveNodesScene ops (some name) box scene = Pruned.mk 0 (some scene.root) [] ∧
    mainRemoveNodes ops (some name) box scene = .error (-1) := by
  simp [RemoveNodesScene, mainRemoveNodes, hmissing]

/-- C7 witness: `sceneRABC` has no node `Z`; the bbox filter `unitBox` is
active and `A` fails it, yet nothing is removed. -/
theorem C7_target_not_found_witness :
    sceneRABC.Node "Z" = none ∧
    RemoveNodesScene intBoxOps (some "Z") unitBox sceneRABC
      = Pruned.mk 0 (some sceneRABC.root) [] ∧
    mainRemoveNodes intBoxOps (some "Z") unitBox sceneRABC = .error (-1) :=
  ⟨by decide, C7_target_not_found intBoxOps "Z" unitBox sceneRABC (by decide)⟩

/-! ## The transform composer -/

theorem identity_eq_one : R3identity_affine = (1 : R4Matrix) := by
  ext i j
  fin_cases i <;> fin_cases j <;> simp [R3identity_affine, Matrix.vecHead, Matrix.vecTail]

/-- The accumulated transform after `-tx d` and then `-sx s` from the identity
is the product of the X scaling with the X translation, in this order. -/
theorem xform_tx_sx (conv : VectorConvention) (rot : R3RotateOps) (junk : Fin 4 → Fin 4 → ℚ)
    (d s : ℚ) :
    ParseArgs conv rot junk [.tx d, .sx s] R3identity_affine =
      scalingMatrix s 1 1 * translationMatrix conv d 0 0 := by
  simp only [ParseArgs, ParseArg, R3Affine.Transform, R3Affine.XTranslate, R3Affine.XScale,
    identity_eq_one, one_mul, mul_one]

/-- C9: for all factors `a` and `b`, processing `-scale a` and then `-scale b`
from the identity gives the uniform scale by `a * b`: the accumulated
transform equals the identity scaled once by `a * b` and sends every point
`(x, y, z)` to `(a*b*x, a*b*y, a*b*z)`, on whichever side of the matrix the
point stands; the second `-scale` is the scaling of the transform accumulated
by the first. -/
theorem C9_scale_accumulates (conv : VectorConvention) (rot : R3RotateOps)
    (junk : Fin 4 → Fin 4 → ℚ) (a b : ℚ) :
    ParseArgs conv rot junk [.scale a, .scale b] R3identity_affine
      = R3identity_affine.Scale (a * b) ∧
    ParseArgs conv rot junk [.scale a, .scale b] R3identity_affine
      = (ParseArgs conv rot junk [.scale a] R3identity_affine).Scale b ∧
    ∀ (side : VectorConvention) (p : R3Point),
      (ParseArgs conv rot junk [.scale a, .scale b] R3identity_affine).Apply side p
        = ⟨a * b * p.x, a * b * p.y, a * b * p.z⟩ := by
  have hm : ParseArgs conv rot junk [.scale a, .scale b] R3identity_affine
      = scalingMatrix (a * b) (a * b) (a * b) := by
    simp only [ParseArgs, ParseArg, R3Affine.Scale, identity_eq_one, one_mul]
    ext i j
    fin_cases i <;> fin_cases j <;>
      simp [scalingMatrix, Matrix.mul_apply, Fin.sum_univ_four, Matrix.vecHead, Matrix.vecTail]
  refine ⟨?_, rfl, ?_⟩
  · rw [hm, R3Affine.Scale, identity_eq_one, one_mul]
  · intro side p
    rw [hm]
    cases side
    · simp [R3Affine.Apply, scalingMatrix, Matrix.vecHead, Matrix.vecTail]
    · simp [R3Affine.Apply, scalingMatrix, Matrix.vecHead, Matrix.vecTail]
      refine ⟨?_, ?_, ?_⟩ <;> ring

theorem xform_unreadable_skipped (conv : VectorConvention) (rot : R3RotateOps)
    (junk : Fin 4 → Fin 4 → ℚ) (prev : R3Affine) (rest : List Arg) :
    ReadMatrix junk none = none ∧
    ParseArg conv rot junk prev (.xform none) = prev ∧
    ParseArgs conv rot junk (.xform none :: rest) prev = ParseArgs conv rot junk rest prev := by
  simp [ReadMatrix, ParseArg, ParseArgs]

/-- C10 (the code at the failing input): a matrix file that opens but holds
the single number 2 is malformed, yet `ReadMatrix` returns success and
`-xform` replaces the identity by a different transform, whatever the
unconverted entries hold. -/
theorem C10_malformed_file_applied (conv : VectorConvention) (rot : R3RotateOps)
    (junk : Fin 4 → Fin 4 → ℚ) :
    ReadMatrix junk (some [2]) ≠ none ∧
    ParseArgs conv rot junk [.xform (some [2])] R3identity_affine ≠ R3identity_affine := by
  refine ⟨by simp [ReadMatrix], ?_⟩
  intro h
  have := congrFun (congrFun h 0) 0
  simp [ParseArgs, ParseArg, ReadMatrix, R3Affine.Transform, identity_eq_one] at this

/-- The image of `(1,0,0)` under the root transformation obtained from `-tx 5`
and then `-sx 2` on an identity root depends on the side on which points
stand: `(12,0,0)` for column vectors and `(7,0,0)` for row vectors. -/
theorem tx_sx_image_by_convention (rot : R3RotateOps) (junk : Fin 4 → Fin 4 → ℚ) :
    (mainTransform (ParseArgs .column rot junk [.tx 5, .sx 2] R3identity_affine)
      R3identity_affine).Apply .column ⟨1, 0, 0⟩ = ⟨12, 0, 0⟩ ∧
    (mainTransform (ParseArgs .row rot junk [.tx 5, .sx 2] R3identity_affine)
      R3identity_affine).Apply .row ⟨1, 0, 0⟩ = ⟨7, 0, 0⟩ := by
  have hne : ∀ conv : VectorConvention,
      scalingMatrix 2 1 1 * translationMatrix conv 5 0 0 ≠ R3identity_affine := by
    intro conv h
    have := congrFun (congrFun h 0) 0
    cases conv <;>
      simp [R3identity_affine, scalingMatrix, translationMatrix, Matrix.mul_apply,
        Fin.sum_univ_four, Matrix.vecHead, Matrix.vecTail] at this
  have hm : ∀ conv : VectorConvention,
      mainTransform (ParseArgs conv rot junk [.tx 5, .sx 2] R3identity_affine) R3identity_affine
        = scalingMatrix 2 1 1 * translationMatrix conv 5 0 0 := by
    intro conv
    rw [xform_tx_sx, mainTransform, R3Affine.IsIdentity]
    simp only [hne conv, decide_False, Bool.not_false, if_true]
    simp only [R3Affine.Transform, identity_eq_one, one_mul, mul_one]
  rw [hm, hm]
  constructor
  · simp [R3Affine.Apply, scalingMatrix, translationMatrix, Matrix.mul_apply,
      Fin.sum_univ_four, Matrix.vecHead, Matrix.vecTail]
    norm_num
  · simp [R3Affine.Apply, scalingMatrix, translationMatrix, Matrix.mul_apply,
      Fin.sum_univ_four, Matrix.vecHead, Matrix.vecTail]
    norm_num

end Scn2Scn
